import Mathlib

/-!
Verification of the Connect Four game engine in src/connect4.js.

The source file holds two variants of the `Game` class, modelled here
side by side:

* variant A (rotation of N players): `Game.handleClick` places the
  piece, checks win / tie, and otherwise rotates the player sequence
  with `switchPlayers`;
* variant B (fixed human/computer pair): `Game.handleClick` applies the
  human move, evaluates the game, locks input (`canClick = false`) and
  schedules the computer reply via `setTimeout`; the timer callback
  applies the computer move, evaluates, and unlocks.

Cells of the JS board hold either `undefined` (empty) or a player
color; we model a cell as `Option α` where `α` is the token (color)
type, `none` being empty.  Rows are JS arrays, so reading an index
beyond the length yields `undefined` and writing beyond the length
extends the array with holes; `jsGetCell` and `jsSetRow` model exactly
that.
-/

/-- Board is the in-JS board structure: an array of rows, each row an
array of cells, indexed `board[y][x]`. -/
abbrev Board (α : Type) : Type := List (List (Option α))

/-- JS read `row[x]`: the element when `x` is in range, `undefined`
(here `none`) otherwise. -/
def jsGetRow {α : Type} (row : List (Option α)) (x : Nat) : Option α :=
  (row.get? x).getD none

/-- JS read `board[y][x]` for a valid row index `y` (all uses in the
source have `y < height`): out-of-range column reads give `undefined`. -/
def jsGetCell {α : Type} (b : Board α) (y x : Nat) : Option α :=
  jsGetRow ((List.get? b y).getD []) x

/-- JS write `row[x] = v`: assigns in place when `x < row.length`,
otherwise extends the array with holes up to index `x` (exactly the
JavaScript dense-array-with-holes semantics for a natural index). -/
def jsSetRow {α : Type} (row : List (Option α)) (x : Nat) (v : Option α) :
    List (Option α) :=
  if x < row.length then row.set x v
  else row ++ List.replicate (x - row.length) none ++ [v]

/-- JS write `board[y][x] = v` for a valid row index `y`. -/
def jsSetCell {α : Type} (b : Board α) (y x : Nat) (v : Option α) : Board α :=
  List.set b y (jsSetRow ((List.get? b y).getD []) x v)

/-- makeBoard: create in-JS board structure, `height` rows of `width`
cells, all `undefined`. -/
def makeBoard (α : Type) (width height : Nat) : Board α :=
  List.replicate height (List.replicate width (none : Option α))

/-- wellFormed: the board has exactly `height` rows of `width` cells,
the shape `makeBoard` establishes at construction. -/
def wellFormed {α : Type} (height width : Nat) (b : Board α) : Prop :=
  b.length = height ∧ ∀ row ∈ b, row.length = width

/-- Loop body of findSpotForCol: `for (let y = height - 1; y >= 0; y--)
if (!board[y][x]) return y; return null`, written as structural
recursion on the number of rows still to scan (`fuel = y + 1` scans
rows `y, y-1, ..., 0`). -/
def findSpotAux {α : Type} (b : Board α) (x : Nat) : Nat → Option Nat
  | 0 => none
  | y + 1 => if (jsGetCell b y x).isNone then some y else findSpotAux b x y

/-- findSpotForCol: given column `x`, return top empty `y` (`null` if
filled); scans from the bottom row (`height - 1`) upward. -/
def findSpotForCol {α : Type} (height : Nat) (b : Board α) (x : Nat) :
    Option Nat :=
  findSpotAux b x height

/-- Cell test of the inner `_win` helper: the coordinate pair is a
legal coordinate and the cell matches the acting player color.  The
bounds are checked before the read (short-circuit `&&` in the source),
so no wrapped or clamped access happens. -/
def winCellOk {α : Type} [DecidableEq α] (height width : Nat) (b : Board α)
    (color : α) (p : Int × Int) : Bool :=
  if 0 ≤ p.1 ∧ p.1 < (height : Int) ∧ 0 ≤ p.2 ∧ p.2 < (width : Int) then
    jsGetCell b p.1.toNat p.2.toNat == some color
  else false

/-- the `_win` helper of checkForWin: true iff all four cells of the
candidate line are legal coordinates and all match the player color. -/
def winLine {α : Type} [DecidableEq α] (height width : Nat) (b : Board α)
    (color : α) (cells : List (Int × Int)) : Bool :=
  cells.all (winCellOk height width b color)

/-- checkForWin: check board cell-by-cell for "does a win start here?",
building the four candidate lines (horiz, vert, diagDR, diagDL) at each
start cell and returning true as soon as one is fully matched. -/
def checkForWin {α : Type} [DecidableEq α] (height width : Nat) (b : Board α)
    (color : α) : Bool :=
  (List.range height).any fun y =>
    (List.range width).any fun x =>
      winLine height width b color
          [((y : Int), (x : Int)), (y, x + 1), (y, x + 2), (y, x + 3)] ||
        winLine height width b color
          [((y : Int), (x : Int)), (y + 1, x), (y + 2, x), (y + 3, x)] ||
        winLine height width b color
          [((y : Int), (x : Int)), (y + 1, x + 1), (y + 2, x + 2), (y + 3, x + 3)] ||
        winLine height width b color
          [((y : Int), (x : Int)), (y + 1, (x : Int) - 1), (y + 2, (x : Int) - 2),
            (y + 3, (x : Int) - 3)]

/-- Tie test `board.every(row => row.every(cell => cell))`: every cell
of every row is occupied (truthy). -/
def isFull {α : Type} (b : Board α) : Bool :=
  b.all fun row => row.all fun cell => cell.isSome

/-- Terminal status of a game: playing, or `endGame` has run with a win
message for a color, or with the tie message. -/
inductive Status (α : Type) : Type
  | playing : Status α
  | won : α → Status α
  | tied : Status α
  deriving DecidableEq

/-- State of variant A (rotation of N players): the grid, the ordered
player sequence (colors), the current player, and whether `endGame`
already ran (which removes the click listener). -/
structure GameA (α : Type) : Type where
  width : Nat
  height : Nat
  board : Board α
  players : List α
  currPlayer : α
  status : Status α
  deriving DecidableEq

/-- switchPlayers of variant A: the loop shifts every player one slot
toward the front, the last slot receives the acting player, and
`currPlayer` becomes the new front element `players[0]`.  (For the
nonempty lists every reachable game has, this rotates the acting player
to the back.) -/
def switchPlayers {α : Type} (g : GameA α) : GameA α :=
  match g.players with
  | [] => g
  | _ :: rest =>
    { g with
      players := rest ++ [g.currPlayer]
      currPlayer := (rest ++ [g.currPlayer]).headD g.currPlayer }

/-- handleClick of variant A, as the click event reaches the game: when
`endGame` has run the listener is removed, so a click is not delivered
at all; otherwise find the landing row (ignore the click when the
column is full), place the piece, then check win, then tie, else switch
players. -/
def handleClickA {α : Type} [DecidableEq α] (g : GameA α) (x : Nat) : GameA α :=
  if g.status ≠ Status.playing then g
  else
    match findSpotForCol g.height g.board x with
    | none => g
    | some y =>
      let g1 : GameA α := { g with board := jsSetCell g.board y x (some g.currPlayer) }
      if checkForWin g1.height g1.width g1.board g1.currPlayer then
        { g1 with status := Status.won g1.currPlayer }
      else if isFull g1.board then
        { g1 with status := Status.tied }
      else switchPlayers g1

/-- State of variant B (fixed human/computer pair): the grid, the human
player color (`currPlayer`), the computer color, the input lock
`canClick`, whether `endGame` already ran, and whether a computer reply
is scheduled by `setTimeout` and has not fired yet (`pending`). -/
structure GameB (α : Type) : Type where
  width : Nat
  height : Nat
  board : Board α
  currPlayer : α
  compPlayer : α
  canClick : Bool
  status : Status α
  pending : Bool
  deriving DecidableEq

/-- Constructor of variant B: empty `height × width` board, input
unlocked, nothing scheduled. -/
def mkGameB (α : Type) (width height : Nat) (playerColor compColor : α) :
    GameB α :=
  { width := width
    height := height
    board := makeBoard α width height
    currPlayer := playerColor
    compPlayer := compColor
    canClick := true
    status := Status.playing
    pending := false }

/-- makeMove of variant B: find the landing row for column `x` (if
none, ignore) and place the piece of `player` there. -/
def makeMove {α : Type} (g : GameB α) (x : Nat) (player : α) : GameB α :=
  match findSpotForCol g.height g.board x with
  | none => g
  | some y => { g with board := jsSetCell g.board y x (some player) }

/-- evaluateGame of variant B: checks whether the game has been won by
`player` (then `endGame` with the win message) or tied (then `endGame`
with the tie message); the tie test runs only when no win was found. -/
def evaluateGame {α : Type} [DecidableEq α] (g : GameB α) (player : α) : GameB α :=
  if checkForWin g.height g.width g.board player then
    { g with status := Status.won player }
  else if isFull g.board then { g with status := Status.tied }
  else g

/-- handleClick of variant B, as the click event reaches the game: the
removed listener makes clicks after `endGame` no-ops; otherwise, only
when `canClick` holds, apply the human move and evaluate, then lock
input and schedule the computer reply (`pending := true`); when
`canClick` is false the handler returns at once. -/
def handleClickB {α : Type} [DecidableEq α] (g : GameB α) (x : Nat) : GameB α :=
  if g.status ≠ Status.playing then g
  else if g.canClick then
    let g1 : GameB α := makeMove g x g.currPlayer
    let g2 : GameB α := evaluateGame g1 g.currPlayer
    { g2 with canClick := false, pending := true }
  else g

/-- Firing of the scheduled `setTimeout` callback of variant B, with
the computer column choice `compX`: the callback applies the computer
move, evaluates the game for the computer, and unlocks input.  The
callback itself performs no terminal-state check. -/
def timerFireB {α : Type} [DecidableEq α] (g : GameB α) (compX : Nat) : GameB α :=
  if g.pending then
    let g1 : GameB α := makeMove g compX g.compPlayer
    let g2 : GameB α := evaluateGame g1 g.compPlayer
    { g2 with canClick := true, pending := false }
  else g

/-- makeMove of the ComputerPlayer class of variant B:
`Math.floor(Math.random() * width)`, with the random draw `r` of
`Math.random()` modelled as a rational in `[0, 1)`. -/
def computerMakeMove (width : Nat) (r : ℚ) : ℤ :=
  ⌊r * (width : ℚ)⌋

/-- makeMove of the ComputerPlayer class of variant A:
`Math.random() * HEIGHT`, with no flooring; the global `HEIGHT` it
reads is defined nowhere in the source (the call would throw a
ReferenceError), so it is taken here as a parameter. -/
def computerMakeMoveA (HEIGHT : ℚ) (r : ℚ) : ℚ :=
  r * HEIGHT

/-- Direction of a candidate line: horizontal right, vertical down,
down-right diagonal, down-left diagonal. -/
inductive Dir : Type
  | horiz : Dir
  | vert : Dir
  | diagDR : Dir
  | diagDL : Dir
  deriving DecidableEq

/-- the four cells of the candidate line of direction `d` starting at
`(y, x)`, exactly the lists `horiz`, `vert`, `diagDR`, `diagDL` built
in `checkForWin`. -/
def lineCells (d : Dir) (y x : Nat) : List (Int × Int) :=
  match d with
  | Dir.horiz => [((y : Int), (x : Int)), (y, x + 1), (y, x + 2), (y, x + 3)]
  | Dir.vert => [((y : Int), (x : Int)), (y + 1, x), (y + 2, x), (y + 3, x)]
  | Dir.diagDR =>
    [((y : Int), (x : Int)), (y + 1, x + 1), (y + 2, x + 2), (y + 3, x + 3)]
  | Dir.diagDL =>
    [((y : Int), (x : Int)), (y + 1, (x : Int) - 1), (y + 2, (x : Int) - 2),
      (y + 3, (x : Int) - 3)]

/-- Specification-side reading of the win condition: some starting cell
`(y, x)` and direction give a candidate line all four of whose cells
are within grid bounds and hold the acting player token. -/
def hasWinSpec {α : Type} (height width : Nat) (b : Board α) (color : α) :
    Prop :=
  ∃ y x : Nat, ∃ d : Dir, ∀ p ∈ lineCells d y x,
    (0 ≤ p.1 ∧ p.1 < (height : Int) ∧ 0 ≤ p.2 ∧ p.2 < (width : Int)) ∧
      jsGetCell b p.1.toNat p.2.toNat = some color

lemma winCellOk_eq_true_iff {α : Type} [DecidableEq α] (height width : Nat)
    (b : Board α) (c : α) (p : Int × Int) :
    winCellOk height width b c p = true ↔
      (0 ≤ p.1 ∧ p.1 < (height : Int) ∧ 0 ≤ p.2 ∧ p.2 < (width : Int)) ∧
        jsGetCell b p.1.toNat p.2.toNat = some c := by
  unfold winCellOk
  split
  case isTrue hP => simp [hP]
  case isFalse hP => simp [hP]

lemma winLine_eq_true_iff {α : Type} [DecidableEq α] (height width : Nat)
    (b : Board α) (c : α) (cells : List (Int × Int)) :
    winLine height width b c cells = true ↔
      ∀ p ∈ cells,
        (0 ≤ p.1 ∧ p.1 < (height : Int) ∧ 0 ≤ p.2 ∧ p.2 < (width : Int)) ∧
          jsGetCell b p.1.toNat p.2.toNat = some c := by
  unfold winLine
  rw [List.all_eq_true]
  constructor
  · intro hall p hp
    exact (winCellOk_eq_true_iff height width b c p).1 (hall p hp)
  · intro hall p hp
    exact (winCellOk_eq_true_iff height width b c p).2 (hall p hp)

lemma findSpotAux_eq_some_iff {α : Type} (b : Board α) (x : Nat) :
    ∀ n y, findSpotAux b x n = some y ↔
      y < n ∧ (jsGetCell b y x).isNone = true ∧
        ∀ z, y < z → z < n → (jsGetCell b z x).isNone = false := by
  intro n
  induction n with
  | zero => intro y; simp [findSpotAux]
  | succ n ih =>
    intro y
    rw [findSpotAux]
    by_cases hn : (jsGetCell b n x).isNone = true
    · rw [if_pos hn]
      constructor
      · intro hy
        obtain rfl : y = n := by simpa using hy.symm
        exact ⟨Nat.lt_succ_self y, hn, fun z h1 h2 => absurd h2 (by omega)⟩
      · rintro ⟨hy, hempty, hocc⟩
        rcases Nat.lt_succ_iff_lt_or_eq.1 hy with hlt | rfl
        · have := hocc n hlt (Nat.lt_succ_self n)
          rw [hn] at this
          cases this
        · rfl
    · rw [if_neg hn]
      rw [ih y]
      have hn' : (jsGetCell b n x).isNone = false := by
        cases h : (jsGetCell b n x).isNone
        · rfl
        · exact absurd h hn
      constructor
      · rintro ⟨hy, hempty, hocc⟩
        refine ⟨Nat.lt_succ_of_lt hy, hempty, fun z h1 h2 => ?_⟩
        rcases Nat.lt_succ_iff_lt_or_eq.1 h2 with hlt | rfl
        · exact hocc z h1 hlt
        · exact hn'
      · rintro ⟨hy, hempty, hocc⟩
        have hyn : y ≠ n := by
          rintro rfl
          rw [hempty] at hn'
          cases hn'
        refine ⟨by omega, hempty, fun z h1 h2 => hocc z h1 (by omega)⟩

lemma findSpotAux_eq_none_iff {α : Type} (b : Board α) (x : Nat) :
    ∀ n, findSpotAux b x n = none ↔
      ∀ y, y < n → (jsGetCell b y x).isNone = false := by
  intro n
  induction n with
  | zero => simp [findSpotAux]
  | succ n ih =>
    rw [findSpotAux]
    by_cases hn : (jsGetCell b n x).isNone = true
    · rw [if_pos hn]
      simp only [reduceCtorEq, false_iff, not_forall]
      refine ⟨n, Nat.lt_succ_self n, ?_⟩
      rw [hn]
      simp
    · rw [if_neg hn]
      rw [ih]
      have hn' : (jsGetCell b n x).isNone = false := by
        cases h : (jsGetCell b n x).isNone
        · rfl
        · exact absurd h hn
      constructor
      · intro hall y hy
        rcases Nat.lt_succ_iff_lt_or_eq.1 hy with hlt | rfl
        · exact hall y hlt
        · exact hn'
      · intro hall y hy
        exact hall y (Nat.lt_succ_of_lt hy)

/-- C2: for every board and column index `x` in `[0, width)`,
`findSpotForCol` returns the largest row index `y` in `[0, height)`
whose cell in column `x` is unoccupied (every row strictly below it is
occupied), returns `null` exactly when every cell of the column is
occupied, and on a fully empty column of positive height it returns the
bottom row `height - 1`. -/
theorem findSpotForCol_spec {α : Type} (height width : Nat) (b : Board α)
    (x : Nat) (hwf : wellFormed height width b) (hx : x < width) :
    (∀ y, findSpotForCol height b x = some y ↔
      y < height ∧ (jsGetCell b y x).isNone = true ∧
        ∀ z, y < z → z < height → (jsGetCell b z x).isNone = false) ∧
    (findSpotForCol height b x = none ↔
      ∀ y, y < height → (jsGetCell b y x).isNone = false) ∧
    ((∀ y, y < height → (jsGetCell b y x).isNone = true) → 0 < height →
      findSpotForCol height b x = some (height - 1)) := by
  refine ⟨fun y => findSpotAux_eq_some_iff b x height y,
    findSpotAux_eq_none_iff b x height, fun hemp hpos => ?_⟩
  exact (findSpotAux_eq_some_iff b x height (height - 1)).2
    ⟨by omega, hemp (height - 1) (by omega), fun z h1 h2 => by omega⟩

theorem findSpotForCol_spec_witness :
    wellFormed 2 2 [[none, some 1], [some 2, some 1]] ∧ (0 : Nat) < 2 ∧
      ((∀ y, findSpotForCol 2 [[none, some 1], [some 2, some 1]] 0 = some y ↔
        y < 2 ∧ (jsGetCell [[none, some 1], [some 2, some 1]] y 0).isNone = true ∧
          ∀ z, y < z → z < 2 →
            (jsGetCell [[none, some 1], [some 2, some 1]] z 0).isNone = false) ∧
      (findSpotForCol 2 [[none, some 1], [some 2, some 1]] 0 = none ↔
        ∀ y, y < 2 →
          (jsGetCell [[none, some 1], [some 2, some 1]] y 0).isNone = false) ∧
      ((∀ y, y < 2 →
          (jsGetCell [[none, some 1], [some 2, some 1]] y 0).isNone = true) →
        0 < 2 →
        findSpotForCol 2 [[none, some 1], [some 2, some 1]] 0 = some 1)) :=
  ⟨by unfold wellFormed; decide, by decide,
    findSpotForCol_spec 2 2 [[none, some 1], [some 2, some 1]] 0
      (by unfold wellFormed; decide) (by decide)⟩

/-- C1: for a grid of dimensions `height × width`, `checkForWin`
returns true iff some starting cell and one of the four directions give
a candidate line whose four cells all lie within grid bounds and all
hold the acting player token; out-of-bounds cells disqualify a line, and
with no satisfied candidate line the exhaustive scan yields false. -/
theorem checkForWin_iff_hasWinSpec {α : Type} [DecidableEq α]
    (height width : Nat) (b : Board α) (c : α)
    (hwf : wellFormed height width b) :
    checkForWin height width b c = true ↔ hasWinSpec height width b c := by
  unfold checkForWin hasWinSpec
  simp only [List.any_eq_true, List.mem_range, Bool.or_eq_true]
  constructor
  · rintro ⟨y, hy, x, hx, ((h1 | h2) | h3) | h4⟩
    · refine ⟨y, x, Dir.horiz, ?_⟩
      simp only [lineCells]
      exact (winLine_eq_true_iff _ _ _ _ _).1 h1
    · refine ⟨y, x, Dir.vert, ?_⟩
      simp only [lineCells]
      exact (winLine_eq_true_iff _ _ _ _ _).1 h2
    · refine ⟨y, x, Dir.diagDR, ?_⟩
      simp only [lineCells]
      exact (winLine_eq_true_iff _ _ _ _ _).1 h3
    · refine ⟨y, x, Dir.diagDL, ?_⟩
      simp only [lineCells]
      exact (winLine_eq_true_iff _ _ _ _ _).1 h4
  · rintro ⟨y, x, d, hall⟩
    have hhead : ((y : Int), (x : Int)) ∈ lineCells d y x := by
      cases d <;> simp [lineCells]
    obtain ⟨⟨_, hy, _, hx⟩, _⟩ := hall _ hhead
    have hy' : y < height := by simpa using hy
    have hx' : x < width := by simpa using hx
    refine ⟨y, hy', x, hx', ?_⟩
    cases d
    case horiz =>
      refine Or.inl (Or.inl (Or.inl ((winLine_eq_true_iff _ _ _ _ _).2 ?_)))
      simpa only [lineCells] using hall
    case vert =>
      refine Or.inl (Or.inl (Or.inr ((winLine_eq_true_iff _ _ _ _ _).2 ?_)))
      simpa only [lineCells] using hall
    case diagDR =>
      refine Or.inl (Or.inr ((winLine_eq_true_iff _ _ _ _ _).2 ?_))
      simpa only [lineCells] using hall
    case diagDL =>
      refine Or.inr ((winLine_eq_true_iff _ _ _ _ _).2 ?_)
      simpa only [lineCells] using hall

theorem checkForWin_iff_hasWinSpec_witness :
    wellFormed 1 4 [[some 1, some 1, some 1, some 1]] ∧
      (checkForWin 1 4 [[some 1, some 1, some 1, some 1]] 1 = true ↔
        hasWinSpec 1 4 [[some 1, some 1, some 1, some 1]] 1) :=
  ⟨by unfold wellFormed; decide,
    checkForWin_iff_hasWinSpec 1 4 [[some 1, some 1, some 1, some 1]] 1
      (by unfold wellFormed; decide)⟩

lemma row_length_of_wellFormed {α : Type} {h w : Nat} {b : Board α}
    (hwf : wellFormed h w b) {y : Nat} (hy : y < h) :
    ((b.get? y).getD []).length = w := by
  obtain ⟨hlen, hrows⟩ := hwf
  have hy' : y < b.length := by omega
  rw [List.get?_eq_get hy']
  exact hrows _ (List.get_mem b y hy')

lemma jsGetCell_jsSetCell_ne {α : Type} (b : Board α) (y x : Nat) (v : Option α)
    (y' x' : Nat) (hne : ¬(y' = y ∧ x' = x)) (hy : y < b.length)
    (hx : x < ((b.get? y).getD []).length) :
    jsGetCell (jsSetCell b y x v) y' x' = jsGetCell b y' x' := by
  unfold jsSetCell jsGetCell jsGetRow jsSetRow
  rw [if_pos hx]
  by_cases hyy : y' = y
  · subst hyy
    rw [List.get?_set_eq_of_lt _ hy]
    simp only [Option.getD_some]
    have hxx : x' ≠ x := fun hh => hne ⟨rfl, hh⟩
    rw [List.get?_set_ne _ _ (Ne.symm hxx)]
  · rw [List.get?_set_ne _ _ (fun hh => hyy hh.symm)]

lemma jsSetCell_wellFormed {α : Type} {h w : Nat} {b : Board α}
    (hwf : wellFormed h w b) {y x : Nat} (hy : y < h) (hx : x < w)
    (v : Option α) : wellFormed h w (jsSetCell b y x v) := by
  have hrl : ((b.get? y).getD []).length = w := row_length_of_wellFormed hwf hy
  obtain ⟨hlen, hrows⟩ := hwf
  unfold jsSetCell jsSetRow
  rw [if_pos (by rw [hrl]; exact hx)]
  constructor
  · rw [List.length_set]
    exact hlen
  · intro row hrow
    rcases List.mem_or_eq_of_mem_set hrow with hmem | rfl
    · exact hrows _ hmem
    · rw [List.length_set]
      exact hrl

lemma jsSetCell_preserves_occupied {α : Type} {h w : Nat} {b : Board α}
    (hwf : wellFormed h w b) {y x : Nat} (hy : y < h) (hx : x < w)
    (v : Option α) (hemp : (jsGetCell b y x).isNone = true) :
    ∀ y' x' t, jsGetCell b y' x' = some t →
      jsGetCell (jsSetCell b y x v) y' x' = some t := by
  intro y' x' t ht
  have hneq : ¬(y' = y ∧ x' = x) := by
    rintro ⟨rfl, rfl⟩
    rw [ht] at hemp
    simp at hemp
  rw [jsGetCell_jsSetCell_ne b y x v y' x' hneq (by rw [hwf.1]; exact hy)
    (by rw [row_length_of_wellFormed hwf hy]; exact hx)]
  exact ht

lemma switchPlayers_same_board {α : Type} (g : GameA α) :
    (switchPlayers g).board = g.board ∧ (switchPlayers g).width = g.width ∧
      (switchPlayers g).height = g.height := by
  unfold switchPlayers
  cases g.players <;> simp

/-- C10: a move request arriving while variant B is in the locked
sub-state (`canClick = false`, between an accepted human move and the
computer reply) is dropped entirely: the whole state, in particular the
grid, the players, and the pending schedule, is unchanged, so nothing
is buffered or replayed later. -/
theorem handleClickB_locked_drops {α : Type} [DecidableEq α] (g : GameB α)
    (x : Nat) (h : g.canClick = false) : handleClickB g x = g := by
  unfold handleClickB
  split
  · rfl
  · rw [h]
    simp

theorem handleClickB_locked_drops_witness :
    (GameB.mk 2 2 [[none, none], [none, none]] 1 2 false Status.playing true :
        GameB Nat).canClick = false ∧
      handleClickB
          (GameB.mk 2 2 [[none, none], [none, none]] 1 2 false Status.playing
            true : GameB Nat) 0 =
        GameB.mk 2 2 [[none, none], [none, none]] 1 2 false Status.playing
          true :=
  ⟨rfl,
    handleClickB_locked_drops
      (GameB.mk 2 2 [[none, none], [none, none]] 1 2 false Status.playing true)
      0 rfl⟩

/-- C4: in a non-terminal state, a move request naming a full column
(no landing row) is a no-op: variant A leaves the entire state, in
particular the grid and the active player, unchanged, and variant B
`makeMove` leaves the state unchanged as well. -/
theorem fullColumn_request_noop {α : Type} [DecidableEq α] (g : GameA α)
    (x : Nat) (hplay : g.status = Status.playing)
    (hfull : findSpotForCol g.height g.board x = none) (gB : GameB α)
    (xB : Nat) (p : α)
    (hfullB : findSpotForCol gB.height gB.board xB = none) :
    handleClickA g x = g ∧ (handleClickA g x).board = g.board ∧
      (handleClickA g x).currPlayer = g.currPlayer ∧ makeMove gB xB p = gB ∧
      (handleClickB gB xB).board = gB.board ∧
      (handleClickB gB xB).currPlayer = gB.currPlayer := by
  have hA : handleClickA g x = g := by
    unfold handleClickA
    rw [if_neg (by simp [hplay])]
    rw [hfull]
  have hB : makeMove gB xB p = gB := by
    unfold makeMove
    rw [hfullB]
  have hBc : makeMove gB xB gB.currPlayer = gB := by
    unfold makeMove
    rw [hfullB]
  have hClickB : (handleClickB gB xB).board = gB.board ∧
      (handleClickB gB xB).currPlayer = gB.currPlayer := by
    unfold handleClickB
    split
    · exact ⟨rfl, rfl⟩
    · split
      · rw [hBc]
        unfold evaluateGame
        dsimp only
        split
        · exact ⟨rfl, rfl⟩
        · split
          · exact ⟨rfl, rfl⟩
          · exact ⟨rfl, rfl⟩
      · exact ⟨rfl, rfl⟩
  exact ⟨hA, by rw [hA], by rw [hA], hB, hClickB.1, hClickB.2⟩

theorem fullColumn_request_noop_witness :
    (GameA.mk 1 1 [[some 1]] [1, 2] 1 Status.playing : GameA Nat).status =
        Status.playing ∧
      findSpotForCol 1 [[some (1 : Nat)]] 0 = none ∧
      (handleClickA (GameA.mk 1 1 [[some 1]] [1, 2] 1 Status.playing :
          GameA Nat) 0 =
        GameA.mk 1 1 [[some 1]] [1, 2] 1 Status.playing ∧
      (handleClickA (GameA.mk 1 1 [[some 1]] [1, 2] 1 Status.playing :
          GameA Nat) 0).board = [[some 1]] ∧
      (handleClickA (GameA.mk 1 1 [[some 1]] [1, 2] 1 Status.playing :
          GameA Nat) 0).currPlayer = 1 ∧
      makeMove
          (GameB.mk 1 1 [[some 2]] 1 2 true Status.playing false : GameB Nat)
          0 1 =
        GameB.mk 1 1 [[some 2]] 1 2 true Status.playing false ∧
      (handleClickB
          (GameB.mk 1 1 [[some 2]] 1 2 true Status.playing false : GameB Nat)
          0).board = [[some 2]] ∧
      (handleClickB
          (GameB.mk 1 1 [[some 2]] 1 2 true Status.playing false : GameB Nat)
          0).currPlayer = 1) :=
  ⟨rfl, by decide,
    fullColumn_request_noop
      (GameA.mk 1 1 [[some 1]] [1, 2] 1 Status.playing) 0 rfl (by decide)
      (GameB.mk 1 1 [[some 2]] 1 2 true Status.playing false) 0 1 (by decide)⟩

lemma handleClickA_preserves {α : Type} [DecidableEq α] (g : GameA α)
    (x : Nat) (hwf : wellFormed g.height g.width g.board) (hx : x < g.width) :
    (handleClickA g x).width = g.width ∧
      (handleClickA g x).height = g.height ∧
      wellFormed g.height g.width (handleClickA g x).board ∧
      ∀ y' x' t, jsGetCell g.board y' x' = some t →
        jsGetCell (handleClickA g x).board y' x' = some t := by
  unfold handleClickA
  split
  · exact ⟨rfl, rfl, hwf, fun _ _ _ ht => ht⟩
  · cases hspot : findSpotForCol g.height g.board x with
    | none => exact ⟨rfl, rfl, hwf, fun _ _ _ ht => ht⟩
    | some y =>
      obtain ⟨hy, hemp, -⟩ :=
        (findSpotAux_eq_some_iff g.board x g.height y).1 hspot
      have hb :
          wellFormed g.height g.width
            (jsSetCell g.board y x (some g.currPlayer)) :=
        jsSetCell_wellFormed hwf hy hx _
      have hp :=
        jsSetCell_preserves_occupied hwf hy hx (some g.currPlayer) hemp
      dsimp only
      split
      · exact ⟨rfl, rfl, hb, hp⟩
      · split
        · exact ⟨rfl, rfl, hb, hp⟩
        · obtain ⟨hbd, hwd, hht⟩ :=
            switchPlayers_same_board
              { g with board := jsSetCell g.board y x (some g.currPlayer) }
          rw [hbd, hwd, hht]
          exact ⟨rfl, rfl, hb, hp⟩

lemma makeMoveB_preserves {α : Type} (gB : GameB α) (xB : Nat) (p : α)
    (hwf : wellFormed gB.height gB.width gB.board) (hx : xB < gB.width) :
    (makeMove gB xB p).width = gB.width ∧
      (makeMove gB xB p).height = gB.height ∧
      wellFormed gB.height gB.width (makeMove gB xB p).board ∧
      ∀ y' x' t, jsGetCell gB.board y' x' = some t →
        jsGetCell (makeMove gB xB p).board y' x' = some t := by
  unfold makeMove
  cases hspot : findSpotForCol gB.height gB.board xB with
  | none => exact ⟨rfl, rfl, hwf, fun _ _ _ ht => ht⟩
  | some y =>
    obtain ⟨hy, hemp, -⟩ :=
      (findSpotAux_eq_some_iff gB.board xB gB.height y).1 hspot
    exact ⟨rfl, rfl, jsSetCell_wellFormed hwf hy hx _,
      jsSetCell_preserves_occupied hwf hy hx (some p) hemp⟩

lemma evaluateGame_same_board {α : Type} [DecidableEq α] (g : GameB α)
    (p : α) :
    (evaluateGame g p).board = g.board ∧ (evaluateGame g p).width = g.width ∧
      (evaluateGame g p).height = g.height := by
  unfold evaluateGame
  split
  · exact ⟨rfl, rfl, rfl⟩
  · split
    · exact ⟨rfl, rfl, rfl⟩
    · exact ⟨rfl, rfl, rfl⟩

lemma handleClickB_preserves {α : Type} [DecidableEq α] (gB : GameB α)
    (xB : Nat) (hwf : wellFormed gB.height gB.width gB.board)
    (hx : xB < gB.width) :
    (handleClickB gB xB).width = gB.width ∧
      (handleClickB gB xB).height = gB.height ∧
      wellFormed gB.height gB.width (handleClickB gB xB).board ∧
      ∀ y' x' t, jsGetCell gB.board y' x' = some t →
        jsGetCell (handleClickB gB xB).board y' x' = some t := by
  unfold handleClickB
  split
  · exact ⟨rfl, rfl, hwf, fun _ _ _ ht => ht⟩
  · split
    · dsimp only
      have hm := makeMoveB_preserves gB xB gB.currPlayer hwf hx
      have he :=
        evaluateGame_same_board (makeMove gB xB gB.currPlayer) gB.currPlayer
      rw [he.1, he.2.1, he.2.2]
      exact hm
    · exact ⟨rfl, rfl, hwf, fun _ _ _ ht => ht⟩

lemma timerFireB_preserves {α : Type} [DecidableEq α] (gB : GameB α)
    (compX : Nat) (hwf : wellFormed gB.height gB.width gB.board)
    (hx : compX < gB.width) :
    (timerFireB gB compX).width = gB.width ∧
      (timerFireB gB compX).height = gB.height ∧
      wellFormed gB.height gB.width (timerFireB gB compX).board ∧
      ∀ y' x' t, jsGetCell gB.board y' x' = some t →
        jsGetCell (timerFireB gB compX).board y' x' = some t := by
  unfold timerFireB
  split
  · dsimp only
    have hm := makeMoveB_preserves gB compX gB.compPlayer hwf hx
    have he :=
      evaluateGame_same_board (makeMove gB compX gB.compPlayer) gB.compPlayer
    rw [he.1, he.2.1, he.2.2]
    exact hm
  · exact ⟨rfl, rfl, hwf, fun _ _ _ ht => ht⟩

/-- C7: in both variants, every placement operation with a column in
the range the column-top cells provide (variant A handleClick; variant
B makeMove with any player, handleClick, and the scheduled timer
callback) keeps the constructed dimensions (the `width` and `height`
fields and the `height × width` shape of the grid) and never clears or
overwrites an occupied cell: every cell holding a token keeps exactly
that token, since findSpotForCol only ever selects an empty cell. -/
theorem placement_preserves_grid {α : Type} [DecidableEq α] (g : GameA α)
    (x : Nat) (gB : GameB α) (xB compX : Nat) (p : α)
    (hwf : wellFormed g.height g.width g.board) (hx : x < g.width)
    (hwfB : wellFormed gB.height gB.width gB.board) (hxB : xB < gB.width)
    (hcomp : compX < gB.width) :
    ((handleClickA g x).width = g.width ∧
      (handleClickA g x).height = g.height ∧
      wellFormed g.height g.width (handleClickA g x).board ∧
      ∀ y' x' t, jsGetCell g.board y' x' = some t →
        jsGetCell (handleClickA g x).board y' x' = some t) ∧
    ((makeMove gB xB p).width = gB.width ∧
      (makeMove gB xB p).height = gB.height ∧
      wellFormed gB.height gB.width (makeMove gB xB p).board ∧
      ∀ y' x' t, jsGetCell gB.board y' x' = some t →
        jsGetCell (makeMove gB xB p).board y' x' = some t) ∧
    ((handleClickB gB xB).width = gB.width ∧
      (handleClickB gB xB).height = gB.height ∧
      wellFormed gB.height gB.width (handleClickB gB xB).board ∧
      ∀ y' x' t, jsGetCell gB.board y' x' = some t →
        jsGetCell (handleClickB gB xB).board y' x' = some t) ∧
    ((timerFireB gB compX).width = gB.width ∧
      (timerFireB gB compX).height = gB.height ∧
      wellFormed gB.height gB.width (timerFireB gB compX).board ∧
      ∀ y' x' t, jsGetCell gB.board y' x' = some t →
        jsGetCell (timerFireB gB compX).board y' x' = some t) :=
  ⟨handleClickA_preserves g x hwf hx, makeMoveB_preserves gB xB p hwfB hxB,
    handleClickB_preserves gB xB hwfB hxB,
    timerFireB_preserves gB compX hwfB hcomp⟩

theorem placement_preserves_grid_witness :
    wellFormed 2 2 ([[none, some 2], [some 1, some 2]] : Board Nat) ∧
      (0 : Nat) < 2 ∧
      (((handleClickA
            (GameA.mk 2 2 [[none, some 2], [some 1, some 2]] [1, 2] 1
              Status.playing : GameA Nat) 0).width = 2 ∧
        (handleClickA
            (GameA.mk 2 2 [[none, some 2], [some 1, some 2]] [1, 2] 1
              Status.playing : GameA Nat) 0).height = 2 ∧
        wellFormed 2 2
          (handleClickA
              (GameA.mk 2 2 [[none, some 2], [some 1, some 2]] [1, 2] 1
                Status.playing : GameA Nat) 0).board ∧
        ∀ y' x' t,
          jsGetCell [[none, some 2], [some 1, some 2]] y' x' = some t →
            jsGetCell
                (handleClickA
                    (GameA.mk 2 2 [[none, some 2], [some 1, some 2]] [1, 2] 1
                      Status.playing : GameA Nat) 0).board y' x' =
              some t) ∧
      ((makeMove
            (GameB.mk 2 2 [[none, some 2], [some 1, some 2]] 1 2 true
              Status.playing true : GameB Nat) 0 1).width = 2 ∧
        (makeMove
            (GameB.mk 2 2 [[none, some 2], [some 1, some 2]] 1 2 true
              Status.playing true : GameB Nat) 0 1).height = 2 ∧
        wellFormed 2 2
          (makeMove
              (GameB.mk 2 2 [[none, some 2], [some 1, some 2]] 1 2 true
                Status.playing true : GameB Nat) 0 1).board ∧
        ∀ y' x' t,
          jsGetCell [[none, some 2], [some 1, some 2]] y' x' = some t →
            jsGetCell
                (makeMove
                    (GameB.mk 2 2 [[none, some 2], [some 1, some 2]] 1 2 true
                      Status.playing true : GameB Nat) 0 1).board y' x' =
              some t) ∧
      ((handleClickB
            (GameB.mk 2 2 [[none, some 2], [some 1, some 2]] 1 2 true
              Status.playing true : GameB Nat) 0).width = 2 ∧
        (handleClickB
            (GameB.mk 2 2 [[none, some 2], [some 1, some 2]] 1 2 true
              Status.playing true : GameB Nat) 0).height = 2 ∧
        wellFormed 2 2
          (handleClickB
              (GameB.mk 2 2 [[none, some 2], [some 1, some 2]] 1 2 true
                Status.playing true : GameB Nat) 0).board ∧
        ∀ y' x' t,
          jsGetCell [[none, some 2], [some 1, some 2]] y' x' = some t →
            jsGetCell
                (handleClickB
                    (GameB.mk 2 2 [[none, some 2], [some 1, some 2]] 1 2 true
                      Status.playing true : GameB Nat) 0).board y' x' =
              some t) ∧
      ((timerFireB
            (GameB.mk 2 2 [[none, some 2], [some 1, some 2]] 1 2 true
              Status.playing true : GameB Nat) 0).width = 2 ∧
        (timerFireB
            (GameB.mk 2 2 [[none, some 2], [some 1, some 2]] 1 2 true
              Status.playing true : GameB Nat) 0).height = 2 ∧
        wellFormed 2 2
          (timerFireB
              (GameB.mk 2 2 [[none, some 2], [some 1, some 2]] 1 2 true
                Status.playing true : GameB Nat) 0).board ∧
        ∀ y' x' t,
          jsGetCell [[none, some 2], [some 1, some 2]] y' x' = some t →
            jsGetCell
                (timerFireB
                    (GameB.mk 2 2 [[none, some 2], [some 1, some 2]] 1 2 true
                      Status.playing true : GameB Nat) 0).board y' x' =
              some t)) :=
  ⟨by unfold wellFormed; decide, by decide,
    placement_preserves_grid
      (GameA.mk 2 2 [[none, some 2], [some 1, some 2]] [1, 2] 1 Status.playing)
      0
      (GameB.mk 2 2 [[none, some 2], [some 1, some 2]] 1 2 true Status.playing
        true) 0 0 1 (by unfold wellFormed; decide) (by decide)
      (by unfold wellFormed; decide) (by decide) (by decide)⟩

/-- C8: a non-terminal move in the N-player rotation variant moves the
acting player (for reachable states the front of the sequence) to the
back, makes the new front element the active player, and keeps the
sequence a permutation of the previous one; with three players the
active player cycles through the second and third player and back. -/
theorem switchPlayers_rotation {α : Type} (g k : GameA α) (p p1 p2 p3 : α)
    (rest : List α) (hg : g.players = p :: rest) (hc : g.currPlayer = p)
    (hk : k.players = [p1, p2, p3]) (hkc : k.currPlayer = p1) :
    (switchPlayers g).players = rest ++ [p] ∧
      (switchPlayers g).currPlayer = (switchPlayers g).players.headD p ∧
      (switchPlayers g).players.Perm g.players ∧
      (switchPlayers k).currPlayer = p2 ∧
      (switchPlayers (switchPlayers k)).currPlayer = p3 ∧
      (switchPlayers (switchPlayers (switchPlayers k))).currPlayer = p1 ∧
      (switchPlayers (switchPlayers (switchPlayers k))).players =
        [p1, p2, p3] := by
  refine ⟨?_, ?_, ?_, ?_, ?_, ?_, ?_⟩
  · simp [switchPlayers, hg, hc]
  · simp [switchPlayers, hg, hc]
  · rw [hg]
    have h1 : (switchPlayers g).players = rest ++ [p] := by
      simp [switchPlayers, hg, hc]
    rw [h1]
    exact List.perm_append_singleton p rest
  · simp [switchPlayers, hk, hkc]
  · simp [switchPlayers, hk, hkc]
  · simp [switchPlayers, hk, hkc]
  · simp [switchPlayers, hk, hkc]

theorem switchPlayers_rotation_witness :
    (GameA.mk 2 2 [[none, none], [none, none]] [1, 2] 1 Status.playing :
        GameA Nat).players = 1 :: [2] ∧
      (GameA.mk 2 2 [[none, none], [none, none]] [1, 2, 3] 1 Status.playing :
        GameA Nat).players = [1, 2, 3] ∧
      ((switchPlayers
          (GameA.mk 2 2 [[none, none], [none, none]] [1, 2] 1 Status.playing :
            GameA Nat)).players = [2] ++ [1] ∧
        (switchPlayers
            (GameA.mk 2 2 [[none, none], [none, none]] [1, 2] 1
              Status.playing : GameA Nat)).currPlayer =
          (switchPlayers
              (GameA.mk 2 2 [[none, none], [none, none]] [1, 2] 1
                Status.playing : GameA Nat)).players.headD 1 ∧
        (switchPlayers
            (GameA.mk 2 2 [[none, none], [none, none]] [1, 2] 1
              Status.playing : GameA Nat)).players.Perm [1, 2] ∧
        (switchPlayers
            (GameA.mk 2 2 [[none, none], [none, none]] [1, 2, 3] 1
              Status.playing : GameA Nat)).currPlayer = 2 ∧
        (switchPlayers
            (switchPlayers
              (GameA.mk 2 2 [[none, none], [none, none]] [1, 2, 3] 1
                Status.playing : GameA Nat))).currPlayer = 3 ∧
        (switchPlayers
            (switchPlayers
              (switchPlayers
                (GameA.mk 2 2 [[none, none], [none, none]] [1, 2, 3] 1
                  Status.playing : GameA Nat)))).currPlayer = 1 ∧
        (switchPlayers
            (switchPlayers
              (switchPlayers
                (GameA.mk 2 2 [[none, none], [none, none]] [1, 2, 3] 1
                  Status.playing : GameA Nat)))).players = [1, 2, 3]) :=
  ⟨rfl, rfl,
    switchPlayers_rotation
      (GameA.mk 2 2 [[none, none], [none, none]] [1, 2] 1 Status.playing)
      (GameA.mk 2 2 [[none, none], [none, none]] [1, 2, 3] 1 Status.playing) 1
      1 2 3 [2] rfl rfl rfl rfl⟩

/-- Trace of variant B from the constructor state of a `4 × 2` game
(human token 1, computer token 2): the human clicks columns 0, 1, 2, 3
and the scheduled computer replies pick the same columns, so the bottom
row fills with 1s and the top row with 2s; the fourth human click
completes a horizontal four-in-a-row and ends the game, with the
computer reply of that turn still scheduled. -/
def gameBWinTrace : GameB Nat :=
  handleClickB
    (timerFireB
      (handleClickB
        (timerFireB (handleClickB (timerFireB (handleClickB (mkGameB Nat 4 2 1 2) 0) 0) 1) 1)
        2) 2) 3

/-- C3, failing run: after the winning human click the state is
terminal (`endGame` has run, the win is announced) and a computer reply
is still scheduled; when the timer fires, the callback applies the
computer move unconditionally, mutating the grid after the game has
ended, and `evaluateGame` even declares the computer a second winner. -/
theorem computerReply_after_terminal_mutates :
    gameBWinTrace.status = Status.won 1 ∧ gameBWinTrace.pending = true ∧
      (timerFireB gameBWinTrace 3).board ≠ gameBWinTrace.board ∧
      (timerFireB gameBWinTrace 3).status = Status.won 2 := by decide

/-- C9, counterexample: the rotation-variant ComputerPlayer makeMove
multiplies the draw by the undefined global `HEIGHT` (taken as a
parameter; any board of standard height has value 6) and applies no
floor, so at draw `1/4` it yields `3/2`, which is not an integer column
index in `[0, 7)` (nor in any column range). -/
theorem computerMakeMoveA_not_integer :
    computerMakeMoveA 6 (1 / 4) = 3 / 2 ∧
      ¬∃ n : ℤ, computerMakeMoveA 6 (1 / 4) = (n : ℚ) ∧ 0 ≤ n ∧ n < 7 := by
  have hval : computerMakeMoveA 6 (1 / 4) = 3 / 2 := by
    norm_num [computerMakeMoveA]
  refine ⟨hval, ?_⟩
  rintro ⟨n, hn, h0, h7⟩
  rw [hval] at hn
  have h2 : (2 : ℚ) * (n : ℚ) = 3 := by linarith
  have h3 : (2 * n : ℤ) = 3 := by exact_mod_cast h2
  omega

/-- C9, amended: the human/computer-variant ComputerPlayer makeMove,
given the board width `w > 0` and a draw `r` in `[0, 1)`, returns
`⌊r * w⌋`, an integer column index in `[0, w)`; its input is the width
alone, so column fullness is not consulted. -/
theorem computerMakeMove_in_range (w : Nat) (r : ℚ) (hw : 0 < w) (h0 : 0 ≤ r)
    (h1 : r < 1) :
    0 ≤ computerMakeMove w r ∧ computerMakeMove w r < (w : ℤ) := by
  unfold computerMakeMove
  constructor
  · exact Int.floor_nonneg.mpr (mul_nonneg h0 (by positivity))
  · rw [Int.floor_lt]
    have hw' : (0 : ℚ) < (w : ℚ) := by exact_mod_cast hw
    calc r * (w : ℚ) < 1 * (w : ℚ) := by
          exact mul_lt_mul_of_pos_right h1 hw'
    _ = (w : ℚ) := one_mul _
    _ = ((w : ℤ) : ℚ) := by push_cast; rfl

theorem computerMakeMove_in_range_witness :
    (0 : Nat) < 7 ∧ (0 : ℚ) ≤ 1 / 2 ∧ (1 / 2 : ℚ) < 1 ∧
      (0 ≤ computerMakeMove 7 (1 / 2) ∧ computerMakeMove 7 (1 / 2) < 7) :=
  ⟨by norm_num, by norm_num, by norm_num,
    computerMakeMove_in_range 7 (1 / 2) (by norm_num) (by norm_num)
      (by norm_num)⟩
